import Mathlib

/-!
Shallow embedding of the staggered search-refinement orchestration found in
`src/App.vue` of the pansouweb repository, together with proofs about it.

The embedding covers:
* the category-key normalization and priority sort used by
  `updateSearchResults` (lines 177-215 of App.vue),
* the sink state mutated by the component (`loading`, `searchResults`,
  `searchTime`, `isUpdating`, `updateCount`, the three timer handles,
  `lastSearchParams`, `hasSearched`, `isActivelySearching`),
* `stopUpdate` (lines 311-331),
* the four-phase query sequence of `handleSearch`, `startSecondAllSearch`
  and `startThirdAllSearch` (lines 56-169 and 217-308), modelled as a pure
  run over the four query outcomes, and
* the timing arithmetic of the staggered delays and of the 5-second
  safety timeout for the `loading` flag.

Machine integers of the source are JavaScript numbers; all quantities that
occur here (result totals, timestamps in milliseconds, timer ids) are
non-negative integers well below 2^53, so they are modelled as `Nat`
(timestamp differences as `Int` where the source subtracts).
-/

namespace PanSou

/-- Result items are opaque to the orchestrator; we index them by naturals. -/
abbrev Item := Nat

/-- A category map: the `merged_by_type` field of a search response,
an ordered mapping from category key to list of result items
(JavaScript objects preserve string-key insertion order). -/
abbrev CatMap := List (String × List Item)

/-- The fixed priority list `diskSortOrder` of App.vue line 177. -/
def diskSortOrder : List String :=
  ["aliyun", "baidu", "quark", "115", "123", "xunlei", "mobile",
   "tianyi", "uc", "pikpak", "ed2k", "magnet", "other"]

/-- The JS test `/^\d+$/.test key`: key is a nonempty string of digits
(expressed on the underlying character list). -/
def isDigits (k : String) : Bool := !k.data.isEmpty && k.data.all Char.isDigit

/-- `normalizeKey` of App.vue line 193: digit-only keys get a `disk_` marker. -/
def normalizeKey (k : String) : String := if isDigits k then "disk_" ++ k else k

/-- `denormalizeKey` of App.vue line 194: `key.replace(/^disk_/, "")` removes
one leading occurrence of `disk_`. -/
def denormalizeKey (k : String) : String :=
  if "disk_".data.isPrefixOf k.data then k.drop 5 else k

/-- The comparator position of a key (App.vue lines 201-205): the index of
its denormalized form in `diskSortOrder`, or 999 when absent. -/
def sortPos (k : String) : Nat :=
  match diskSortOrder.findIdx? (fun s => s == denormalizeKey k) with
  | some i => i
  | none => 999

/-- Stable insertion of one entry into a list already sorted by `sortPos`:
the entry goes in front of the first element whose position is not smaller.
`sortByPos` below is the stable sort this induces; ECMAScript
`Array.prototype.sort` is required to be stable, and any two stable sorts
with respect to the same comparator coincide, so this models the
`entries.sort` call of App.vue lines 200-206. -/
def insertByPos (a : String × List Item) :
    List (String × List Item) → List (String × List Item)
  | [] => [a]
  | b :: l => if sortPos b.1 < sortPos a.1 then b :: insertByPos a l else a :: b :: l

/-- Stable sort of the category entries by comparator position
(App.vue lines 200-206). -/
def sortByPos : List (String × List Item) → List (String × List Item)
  | [] => []
  | a :: l => insertByPos a (sortByPos l)

/-- Step 1 of `updateSearchResults` (line 197): `Object.entries` plus
key normalization. -/
def normalizeEntries (m : CatMap) : CatMap :=
  m.map (fun kv => (normalizeKey kv.1, kv.2))

/-- One JS property assignment `acc[k] = v`: overwrite in place when the key
is already present (keeping its position), append otherwise. -/
def objInsert (m : CatMap) (k : String) (v : List Item) : CatMap :=
  if m.any (fun kv => kv.1 == k) then
    m.map (fun kv => if kv.1 == k then (k, v) else kv)
  else m ++ [(k, v)]

/-- Step 3 of `updateSearchResults` (lines 209-212): the `reduce` that turns
the sorted entry list back into an object. -/
def objFromEntries (l : CatMap) : CatMap :=
  l.foldl (fun acc kv => objInsert acc kv.1 kv.2) []

/-- The full key rewrite performed on every publish
(App.vue lines 193-214): normalize, stable-sort, rebuild the object. -/
def publishMap (m : CatMap) : CatMap :=
  objFromEntries (sortByPos (normalizeEntries m))

/-- A raw backend search response object as seen by the component:
the `total` and `merged_by_type` fields may each be absent or invalid
(modelled as `none`). -/
structure RawResponse where
  total : Option Nat
  merged_by_type : Option CatMap
deriving Repr, DecidableEq

/-- A settled backend query promise: `ok none` models a resolved null or
undefined value, `ok (some r)` a resolved response object, `err` a
rejected promise. -/
inductive QueryResult where
  | ok (resp : Option RawResponse)
  | err
deriving Repr, DecidableEq

/-- Search parameters are opaque to the orchestrator beyond being copied
with an overridden source discriminator, so the keyword stands for the
whole filter set. -/
structure SearchParams where
  kw : String
deriving Repr, DecidableEq

/-- The component state observable by the result sink, together with the
timer bookkeeping fields of App.vue lines 13-44. -/
structure SinkState where
  loading : Bool
  total : Nat
  mergedResults : CatMap
  searchTime : Option Nat
  isUpdating : Bool
  updateCount : Nat
  updateTimer : Option Nat
  secondSearchTimeout : Option Nat
  thirdSearchTimeout : Option Nat
  lastSearchParams : Option SearchParams
  hasSearched : Bool
  isActivelySearching : Bool
  keyword : String
deriving Repr, DecidableEq

/-- JS truthiness clearing of a stored timer handle:
`if (h.value) { clearTimeout(h.value); h.value = null }`. Browser timer
ids are strictly positive, so in practice the handle always becomes null;
a (never produced) zero id would be kept. -/
def clearHandle (t : Option Nat) : Option Nat :=
  match t with
  | some id => if id ≠ 0 then none else some id
  | none => none

/-- `stopUpdate` of App.vue lines 311-331: clear the three timers, flip the
updating flags off, touch nothing else. -/
def stopUpdate (s : SinkState) : SinkState :=
  { s with
    updateTimer := clearHandle s.updateTimer
    secondSearchTimeout := clearHandle s.secondSearchTimeout
    thirdSearchTimeout := clearHandle s.thirdSearchTimeout
    isUpdating := false
    isActivelySearching := false }

/-- `updateSearchResults` of App.vue lines 179-215: a null argument is
ignored; otherwise `total` becomes `response.total || 0`, and the category
map becomes the rewritten `merged_by_type`, or empty when that field is
missing. -/
def updateSearchResults (response : Option RawResponse) (s : SinkState) : SinkState :=
  match response with
  | none => s
  | some r =>
    let s1 := { s with total := r.total.getD 0 }
    match r.merged_by_type with
    | none => { s1 with mergedResults := [] }
    | some m => { s1 with mergedResults := publishMap m }

/-- The guard `response && response.total >= searchResults.total` of
App.vue lines 107, 248 and 295; a missing total compares as false. -/
def geGuard (resp : Option RawResponse) (cur : Nat) : Bool :=
  match resp with
  | some r =>
    match r.total with
    | some t => decide (cur ≤ t)
    | none => false
  | none => false

/-- The guard `response && response.total !== undefined` of App.vue
lines 93, 127 and 146. -/
def definedGuard (resp : Option RawResponse) : Bool :=
  match resp with
  | some r => r.total.isSome
  | none => false

/-- The conditional publish
`if (response && response.total >= searchResults.total) updateSearchResults(response)`. -/
def guardedPublish (resp : Option RawResponse) (s : SinkState) : SinkState :=
  if geGuard resp s.total then updateSearchResults resp s else s

/-- The total carried by a resolved response value, as a list
(empty when the value is null or its total is missing). -/
def respTotals (resp : Option RawResponse) : List Nat :=
  match resp with
  | some r => r.total.toList
  | none => []

/-- The total carried by a settled query (empty on rejection). -/
def resultTotals (q : QueryResult) : List Nat :=
  match q with
  | .ok resp => respTotals resp
  | .err => []

/-- A query settled with a well-formed response: resolved, non-null, with a
present total. -/
def wellFormed (q : QueryResult) : Bool :=
  match q with
  | .ok resp => definedGuard resp
  | .err => false

/-- Observables of one full refinement run: the final component state, the
displayed total after the initial reset and after each settled phase, the
totals of the well-formed responses actually received (in arrival order),
and which phases published, executed, or were scheduled. -/
structure RunResult where
  state : SinkState
  totals : List Nat
  received : List Nat
  aPublished : Bool
  bExecuted : Bool
  cScheduled : Bool
  cExecuted : Bool
  dScheduled : Bool
  dExecuted : Bool
deriving Repr, DecidableEq

/-- `executeThirdAllSearch` of App.vue lines 285-304, applied when the
phase-D timer fires and the query settles with outcome `d`: bail out via
`stopUpdate` when `lastSearchParams` is null; otherwise publish under the
total guard on success, log on rejection, and in both cases finish with
`stopUpdate`. -/
def runPhaseD (d : QueryResult) (acc : RunResult) : RunResult :=
  if acc.state.lastSearchParams.isNone then
    { acc with state := stopUpdate acc.state }
  else
    match d with
    | .ok resp =>
      let s2 := stopUpdate (guardedPublish resp acc.state)
      { acc with
        state := s2
        totals := acc.totals ++ [s2.total]
        received := acc.received ++ respTotals resp
        dExecuted := true }
    | .err =>
      let s2 := stopUpdate acc.state
      { acc with
        state := s2
        totals := acc.totals ++ [s2.total]
        dExecuted := true }

/-- `startThirdAllSearch` of App.vue lines 268-308: return when
`lastSearchParams` is null, set `updateCount` to 2, arm the phase-D timer;
`d` is the outcome its callback will observe. -/
def runStartThird (d : QueryResult) (acc : RunResult) : RunResult :=
  if acc.state.lastSearchParams.isNone then acc
  else
    let s := { acc.state with updateCount := 2, thirdSearchTimeout := some 3 }
    runPhaseD d { acc with state := s, dScheduled := true }

/-- `executeSecondAllSearch` of App.vue lines 237-261, applied when the
phase-C timer fires and the query settles with outcome `c`: on success
publish under the total guard and start phase D; on rejection stop the
whole sequence via `stopUpdate` (phase D is never scheduled). -/
def runPhaseC (c d : QueryResult) (acc : RunResult) : RunResult :=
  if acc.state.lastSearchParams.isNone then
    { acc with state := stopUpdate acc.state }
  else
    match c with
    | .ok resp =>
      let s1 := guardedPublish resp acc.state
      runStartThird d
        { acc with
          state := s1
          totals := acc.totals ++ [s1.total]
          received := acc.received ++ respTotals resp
          cExecuted := true }
    | .err =>
      let s2 := stopUpdate acc.state
      { acc with
        state := s2
        totals := acc.totals ++ [s2.total]
        cExecuted := true }

/-- `startSecondAllSearch` of App.vue lines 218-265: return when
`lastSearchParams` is null, raise the updating flags, set `updateCount` to
1, arm the phase-C timer; `c` and `d` are the outcomes the continuations
will observe. -/
def runStartSecond (c d : QueryResult) (acc : RunResult) : RunResult :=
  if acc.state.lastSearchParams.isNone then acc
  else
    let s := { acc.state with
      isUpdating := true
      isActivelySearching := true
      updateCount := 1
      secondSearchTimeout := some 2 }
    runPhaseC c d { acc with state := s, cScheduled := true }

/-- The `.then`/`.catch` continuation of query B in the branch where query
A succeeded with a well-formed response (App.vue lines 101-119): publish
under the total guard on success, and start phase C whether B succeeded or
was rejected. -/
def runPhaseBAfterAOk (b c d : QueryResult) (acc : RunResult) : RunResult :=
  match b with
  | .ok resp =>
    let s1 := guardedPublish resp acc.state
    runStartSecond c d
      { acc with
        state := s1
        totals := acc.totals ++ [s1.total]
        received := acc.received ++ respTotals resp
        bExecuted := true }
  | .err =>
    runStartSecond c d
      { acc with bExecuted := true, totals := acc.totals ++ [acc.state.total] }

/-- The `.then`/`.catch` continuation of query B in the branches where
query A failed or returned a malformed response (App.vue lines 125-136 and
144-155): a well-formed B is published unconditionally and the sequence
continues with phase C; a malformed or null B ends the sequence silently;
a rejected B ends it clearing `isActivelySearching`. -/
def runPhaseBAfterAFail (b c d : QueryResult) (acc : RunResult) : RunResult :=
  match b with
  | .ok resp =>
    if definedGuard resp then
      let s1 := updateSearchResults resp acc.state
      runStartSecond c d
        { acc with
          state := s1
          totals := acc.totals ++ [s1.total]
          received := acc.received ++ respTotals resp
          bExecuted := true }
    else
      { acc with bExecuted := true, totals := acc.totals ++ [acc.state.total] }
  | .err =>
    { acc with
      state := { acc.state with isActivelySearching := false }
      bExecuted := true
      totals := acc.totals ++ [acc.state.total] }

/-- The `.then`/`.catch` continuation of query A (App.vue lines 91-156);
`aDur` is the elapsed wall clock recorded as `searchTime`. A well-formed A
is published unconditionally, `searchTime` is recorded and `loading`
cleared; a malformed or rejected A only clears `loading`; in every case
query B is issued. -/
def runPhaseA (aDur : Nat) (a b c d : QueryResult) (acc : RunResult) : RunResult :=
  match a with
  | .ok resp =>
    if definedGuard resp then
      let s1 := updateSearchResults resp acc.state
      let s2 := { s1 with searchTime := some aDur, loading := false }
      runPhaseBAfterAOk b c d
        { acc with
          state := s2
          totals := acc.totals ++ [s2.total]
          received := acc.received ++ respTotals resp
          aPublished := true }
    else
      runPhaseBAfterAFail b c d
        { acc with
          state := { acc.state with loading := false }
          totals := acc.totals ++ [acc.state.total] }
  | .err =>
    runPhaseBAfterAFail b c d
      { acc with
        state := { acc.state with loading := false }
        totals := acc.totals ++ [acc.state.total] }

/-- The synchronous head of `handleSearch` (App.vue lines 56-75): stop the
previous update, record the keyword, mark searching, raise `loading`,
clear the previous results, save the search parameters. -/
def searchReset (p : SearchParams) (s : SinkState) : SinkState :=
  let s1 := stopUpdate s
  { s1 with
    keyword := p.kw
    hasSearched := true
    isActivelySearching := true
    loading := true
    total := 0
    mergedResults := []
    searchTime := none
    lastSearchParams := some p }

/-- One complete refinement run of `handleSearch` for a single search that
is never superseded: all four queries settle with the given outcomes in
phase order, and every armed timer fires. -/
def runSearch (p : SearchParams) (aDur : Nat) (a b c d : QueryResult)
    (s0 : SinkState) : RunResult :=
  let s := searchReset p s0
  runPhaseA aDur a b c d
    { state := s
      totals := [s.total]
      received := []
      aPublished := false
      bExecuted := false
      cScheduled := false
      cExecuted := false
      dScheduled := false
      dExecuted := false }

/-- `delayForSecondSearch` of App.vue lines 232-234: wait
`max(0, 2000 - (now - firstAllSearchCompleteTime))` milliseconds. -/
def delayForSecondSearch (now firstAllSearchCompleteTime : Int) : Int :=
  max 0 (2000 - (now - firstAllSearchCompleteTime))

/-- `delayForThirdSearch` of App.vue lines 280-282: wait
`max(0, 3000 - (now - secondAllSearchCompleteTime))` milliseconds. -/
def delayForThirdSearch (now secondAllSearchCompleteTime : Int) : Int :=
  max 0 (3000 - (now - secondAllSearchCompleteTime))

/-- Events that touch the global `loading` flag. -/
inductive LoadEvent where
  | searchStart
  | resolveA
  | safetyTimeout
deriving Repr, DecidableEq

/-- Effect of one event on `loading`: a search start sets it (line 65),
query A settling clears it (lines 98, 122 and 141), and a firing safety
timeout runs `if (loading.value) loading.value = false` (lines 159-163). -/
def applyLoadEvent (ld : Bool) (e : LoadEvent) : Bool :=
  match e with
  | .searchStart => true
  | .resolveA => false
  | .safetyTimeout => if ld then false else ld

/-- Fold a chronological event list into the final `loading` value. -/
def loadingAfter (evs : List (Nat × LoadEvent)) : Bool :=
  evs.foldl (fun ld e => applyLoadEvent ld e.2) false

/-- The `loading` value at time `t`: all events stamped at or before `t`
have been delivered. -/
def loadingAt (evs : List (Nat × LoadEvent)) (t : Nat) : Bool :=
  loadingAfter (evs.filter (fun e => e.1 ≤ t))

/-- The chronological events of a single search starting at `s` whose
query A settles at `rA`: the start, the settlement, and the 5-second
safety timeout armed at the start. The timeout handle is never stored
anywhere (App.vue lines 159-163), so it is never cancelled and always
fires at `s + 5000`. -/
def oneSearchTimeline (s rA : Nat) : List (Nat × LoadEvent) :=
  if rA ≤ s + 5000 then
    [(s, .searchStart), (rA, .resolveA), (s + 5000, .safetyTimeout)]
  else
    [(s, .searchStart), (s + 5000, .safetyTimeout), (rA, .resolveA)]

/-- Chronological insertion of one timed event. -/
def insertByTime (a : Nat × LoadEvent) :
    List (Nat × LoadEvent) → List (Nat × LoadEvent)
  | [] => [a]
  | b :: l => if b.1 ≤ a.1 then b :: insertByTime a l else a :: b :: l

/-- Sort timed events chronologically (the event loop delivers timers and
promise continuations in timestamp order). -/
def timeSort : List (Nat × LoadEvent) → List (Nat × LoadEvent)
  | [] => []
  | a :: l => insertByTime a (timeSort l)

/-- The chronological events of two overlapping searches: the first starts
at `s1` with query A settling at `r1`, the second at `s2` with query A
settling at `r2`. Both safety timeouts fire, because neither is ever
cancelled. -/
def twoSearchTimeline (s1 r1 s2 r2 : Nat) : List (Nat × LoadEvent) :=
  timeSort (oneSearchTimeline s1 r1 ++ oneSearchTimeline s2 r2)

/-- `QueryResult.isErr`: the query promise was rejected. -/
def QueryResult.isErr : QueryResult → Bool
  | .err => true
  | .ok _ => false

/-- The component state right after mount (App.vue lines 13-44): nothing
loaded, no results, no timers, no saved parameters. -/
def initialState : SinkState :=
  { loading := false
    total := 0
    mergedResults := []
    searchTime := none
    isUpdating := false
    updateCount := 0
    updateTimer := none
    secondSearchTimeout := none
    thirdSearchTimeout := none
    lastSearchParams := none
    hasSearched := false
    isActivelySearching := false
    keyword := "" }

/-- Trace invariant of a run in progress: the displayed-total trace starts
at 0 (the reset), ends at the current displayed total, never decreases,
and the current displayed total is the maximum (0 for none) of the totals
of the well-formed responses received so far. -/
def GoodTraceP (tot rec : List Nat) (cur : Nat) : Prop :=
  tot.head? = some 0 ∧
  tot.getLast? = some cur ∧
  List.Chain' (· ≤ ·) tot ∧
  cur = rec.foldr max 0

/-- The trace invariant, read off a `RunResult`. -/
def GoodTrace (acc : RunResult) : Prop :=
  GoodTraceP acc.totals acc.received acc.state.total

theorem insertByPos_perm (a : String × List Item) (l : List (String × List Item)) :
    List.Perm (insertByPos a l) (a :: l) := by
  induction l with
  | nil => simp [insertByPos]
  | cons b t ih =>
      by_cases h : sortPos b.1 < sortPos a.1
      · simpa [insertByPos, h] using (ih.cons b).trans (List.Perm.swap a b t)
      · simp [insertByPos, h]

theorem sortByPos_perm (l : List (String × List Item)) : List.Perm (sortByPos l) l := by
  induction l with
  | nil => simp [sortByPos]
  | cons a t ih => exact (insertByPos_perm a (sortByPos t)).trans (ih.cons a)

theorem mem_insertByPos {x a : String × List Item} {l : List (String × List Item)} :
    x ∈ insertByPos a l ↔ x = a ∨ x ∈ l := by
  rw [(insertByPos_perm a l).mem_iff]; simp

theorem sublist_insertByPos (a : String × List Item) (l : List (String × List Item)) :
    List.Sublist l (insertByPos a l) := by
  induction l with
  | nil => simp [insertByPos]
  | cons b t ih =>
      by_cases h : sortPos b.1 < sortPos a.1
      · simpa [insertByPos, h] using ih.cons₂ b
      · simp [insertByPos, h, List.sublist_cons_self a (b :: t)]

theorem pairwise_insertByPos {a : String × List Item} {l : List (String × List Item)}
    (h : l.Pairwise (fun u v => sortPos u.1 ≤ sortPos v.1)) :
    (insertByPos a l).Pairwise (fun u v => sortPos u.1 ≤ sortPos v.1) := by
  induction l with
  | nil => simp [insertByPos]
  | cons b t ih =>
      rcases List.pairwise_cons.mp h with ⟨hb, ht⟩
      by_cases hba : sortPos b.1 < sortPos a.1
      · have := ih ht
        simp only [insertByPos, hba, if_pos]
        refine List.pairwise_cons.mpr ⟨?_, this⟩
        intro x hx
        rcases mem_insertByPos.mp hx with rfl | hx
        · exact Nat.le_of_lt hba
        · exact hb x hx
      · simp only [insertByPos, hba, if_neg, not_false_iff]
        refine List.pairwise_cons.mpr ⟨?_, h⟩
        intro x hx
        have hab : sortPos a.1 ≤ sortPos b.1 := Nat.le_of_not_lt hba
        rcases List.mem_cons.mp hx with rfl | hx
        · exact hab
        · exact le_trans hab (hb x hx)

theorem pairwise_sortByPos (l : List (String × List Item)) :
    (sortByPos l).Pairwise (fun u v => sortPos u.1 ≤ sortPos v.1) := by
  induction l with
  | nil => simp [sortByPos]
  | cons a t ih => exact pairwise_insertByPos ih

theorem insertByPos_pair {a y : String × List Item} {t : List (String × List Item)}
    (hp : sortPos a.1 ≤ sortPos y.1) (hy : List.Sublist [y] t) :
    List.Sublist [a, y] (insertByPos a t) := by
  induction t with
  | nil => cases hy
  | cons b t ih =>
      by_cases hba : sortPos b.1 < sortPos a.1
      · have hyt : List.Sublist [y] t := by
          cases hy with
          | cons _ h => exact h
          | cons₂ _ h =>
              exact absurd (lt_of_lt_of_le hba hp) (lt_irrefl _)
        simpa [insertByPos, hba] using (ih hyt).cons b
      · simpa [insertByPos, hba] using hy.cons₂ a

theorem sortByPos_stable {x y : String × List Item} {l : List (String × List Item)}
    (h : List.Sublist [x, y] l) (hp : sortPos x.1 ≤ sortPos y.1) :
    List.Sublist [x, y] (sortByPos l) := by
  induction l with
  | nil => cases h
  | cons b t ih =>
      cases h with
      | cons _ h' =>
          exact (ih h').trans (sublist_insertByPos b (sortByPos t))
      | cons₂ _ h' =>
          have hy : List.Sublist [y] (sortByPos t) := by
            rw [List.singleton_sublist] at h' ⊢
            exact (sortByPos_perm t).symm.subset h'
          simpa [sortByPos] using insertByPos_pair hp hy

theorem objInsert_of_fresh {m : CatMap} {k : String} (v : List Item)
    (h : ∀ kv ∈ m, kv.1 ≠ k) : objInsert m k v = m ++ [(k, v)] := by
  have : m.any (fun kv => kv.1 == k) = false := by
    simp only [List.any_eq_false]
    intro kv hkv
    simpa using h kv hkv
  simp [objInsert, this]

theorem objFromEntries_of_nodup {l : CatMap} (h : (l.map Prod.fst).Nodup) :
    objFromEntries l = l := by
  suffices H : ∀ (l acc : CatMap),
      ((acc ++ l).map Prod.fst).Nodup →
      l.foldl (fun acc kv => objInsert acc kv.1 kv.2) acc = acc ++ l by
    simpa using H l [] (by simpa using h)
  intro l
  induction l with
  | nil => intro acc _; simp
  | cons kv t ih =>
      intro acc hacc
      have hfresh : ∀ p ∈ acc, p.1 ≠ kv.1 := by
        intro p hp hpk
        have : (acc.map Prod.fst ++ kv.1 :: t.map Prod.fst).Nodup := by
          simpa using hacc
        rcases List.nodup_append.mp this with ⟨_, _, hdisj⟩
        exact hdisj (a := kv.1) (by simpa [hpk] using List.mem_map_of_mem Prod.fst hp)
          (List.mem_cons_self _ _)
      have hins : objInsert acc kv.1 kv.2 = acc ++ [kv] :=
        objInsert_of_fresh kv.2 hfresh
      have hacc' : (((acc ++ [kv]) ++ t).map Prod.fst).Nodup := by
        simpa [List.append_assoc] using hacc
      calc (kv :: t).foldl (fun acc kv => objInsert acc kv.1 kv.2) acc
          = t.foldl (fun acc kv => objInsert acc kv.1 kv.2) (acc ++ [kv]) := by
            simp [List.foldl_cons, hins]
        _ = (acc ++ [kv]) ++ t := ih (acc ++ [kv]) hacc'
        _ = acc ++ kv :: t := by simp

theorem foldr_max_le {l : List Nat} {b : Nat} (h : ∀ t ∈ l, t ≤ b) :
    l.foldr max 0 ≤ b := by
  induction l with
  | nil => exact Nat.zero_le b
  | cons x t ih =>
      simp only [List.foldr_cons]
      exact max_le (h x (List.mem_cons_self x t))
        (ih fun u hu => h u (List.mem_cons_of_mem x hu))

theorem foldr_max_append (l₁ l₂ : List Nat) :
    (l₁ ++ l₂).foldr max 0 = max (l₁.foldr max 0) (l₂.foldr max 0) := by
  induction l₁ with
  | nil => simp
  | cons x t ih => simp [ih, Nat.max_assoc]

theorem stopUpdate_total (s : SinkState) : (stopUpdate s).total = s.total := rfl

theorem stopUpdate_loading (s : SinkState) : (stopUpdate s).loading = s.loading := rfl

theorem stopUpdate_lastSearchParams (s : SinkState) :
    (stopUpdate s).lastSearchParams = s.lastSearchParams := rfl

theorem updateSearchResults_loading (resp : Option RawResponse) (s : SinkState) :
    (updateSearchResults resp s).loading = s.loading := by
  rcases resp with _ | ⟨t, m⟩
  · rfl
  · rcases m with _ | m <;> rfl

theorem updateSearchResults_lastSearchParams (resp : Option RawResponse) (s : SinkState) :
    (updateSearchResults resp s).lastSearchParams = s.lastSearchParams := by
  rcases resp with _ | ⟨t, m⟩
  · rfl
  · rcases m with _ | m <;> rfl

theorem updateSearchResults_total (r : RawResponse) (s : SinkState) :
    (updateSearchResults (some r) s).total = r.total.getD 0 := by
  rcases r with ⟨t, m⟩
  rcases m with _ | m <;> rfl

theorem guardedPublish_loading (resp : Option RawResponse) (s : SinkState) :
    (guardedPublish resp s).loading = s.loading := by
  unfold guardedPublish
  split
  · exact updateSearchResults_loading resp s
  · rfl

theorem guardedPublish_lastSearchParams (resp : Option RawResponse) (s : SinkState) :
    (guardedPublish resp s).lastSearchParams = s.lastSearchParams := by
  unfold guardedPublish
  split
  · exact updateSearchResults_lastSearchParams resp s
  · rfl

theorem guardedPublish_total (resp : Option RawResponse) (s : SinkState) :
    (guardedPublish resp s).total = max s.total ((respTotals resp).foldr max 0) := by
  rcases resp with _ | ⟨t, m⟩
  · simp [guardedPublish, geGuard, respTotals]
  · rcases t with _ | t
    · simp [guardedPublish, geGuard, respTotals]
    · by_cases h : s.total ≤ t
      · have hg : geGuard (some ⟨some t, m⟩) s.total = true := by
          simp [geGuard, h]
        have ht : (updateSearchResults (some ⟨some t, m⟩) s).total = t :=
          updateSearchResults_total _ s
        simp [guardedPublish, hg, ht, respTotals]
        omega
      · have hg : geGuard (some ⟨some t, m⟩) s.total = false := by
          simp [geGuard, h]
        simp [guardedPublish, hg, respTotals]
        omega

theorem goodTraceP_step {tot rec : List Nat} {cur : Nat}
    (h : GoodTraceP tot rec cur) (new : Nat) (ts : List Nat)
    (hnew : new = max cur (ts.foldr max 0)) :
    GoodTraceP (tot ++ [new]) (rec ++ ts) new := by
  obtain ⟨h0, hlast, hchain, hmax⟩ := h
  refine ⟨?_, ?_, ?_, ?_⟩
  · rw [List.head?_append, h0]; rfl
  · exact List.getLast?_concat tot
  · refine List.chain'_append.mpr ⟨hchain, List.chain'_singleton new, ?_⟩
    intro x hx y hy
    rw [hlast] at hx
    simp only [List.head?_cons, Option.mem_some_iff] at hx hy
    subst hx; subst hy
    exact hnew ▸ le_max_left _ _
  · rw [foldr_max_append, ← hmax, hnew]

theorem runPhaseD_good (d : QueryResult) (acc : RunResult) (h : GoodTrace acc) :
    GoodTrace (runPhaseD d acc) := by
  unfold runPhaseD
  split
  · exact h
  · cases d with
    | ok resp =>
        exact goodTraceP_step h _ (respTotals resp)
          (by simpa using guardedPublish_total resp acc.state)
    | err =>
        simpa using goodTraceP_step h acc.state.total []
          (by simp)

theorem runStartThird_good (d : QueryResult) (acc : RunResult) (h : GoodTrace acc) :
    GoodTrace (runStartThird d acc) := by
  unfold runStartThird
  split
  · exact h
  · exact runPhaseD_good d _ h

theorem runPhaseC_good (c d : QueryResult) (acc : RunResult) (h : GoodTrace acc) :
    GoodTrace (runPhaseC c d acc) := by
  unfold runPhaseC
  split
  · exact h
  · cases c with
    | ok resp =>
        refine runStartThird_good d _ ?_
        exact goodTraceP_step h _ (respTotals resp)
          (by simpa using guardedPublish_total resp acc.state)
    | err =>
        simpa using goodTraceP_step h acc.state.total [] (by simp)

theorem runStartSecond_good (c d : QueryResult) (acc : RunResult) (h : GoodTrace acc) :
    GoodTrace (runStartSecond c d acc) := by
  unfold runStartSecond
  split
  · exact h
  · exact runPhaseC_good c d _ h

theorem runPhaseBAfterAOk_good (b c d : QueryResult) (acc : RunResult) (h : GoodTrace acc) :
    GoodTrace (runPhaseBAfterAOk b c d acc) := by
  unfold runPhaseBAfterAOk
  cases b with
  | ok resp =>
      refine runStartSecond_good c d _ ?_
      exact goodTraceP_step h _ (respTotals resp)
        (by simpa using guardedPublish_total resp acc.state)
  | err =>
      refine runStartSecond_good c d _ ?_
      simpa using goodTraceP_step h acc.state.total [] (by simp)

theorem runPhaseBAfterAFail_good (b c d : QueryResult) (acc : RunResult)
    (h : GoodTrace acc) (h0 : acc.state.total = 0) :
    GoodTrace (runPhaseBAfterAFail b c d acc) := by
  cases b with
  | ok resp =>
      by_cases hdef : definedGuard resp = true
      · simp only [runPhaseBAfterAFail]
        rw [if_pos hdef]
        refine runStartSecond_good c d _ ?_
        rcases resp with _ | ⟨t, m⟩
        · simp [definedGuard] at hdef
        · rcases t with _ | t
          · simp [definedGuard] at hdef
          · have ht : (updateSearchResults (some ⟨some t, m⟩) acc.state).total = t :=
              updateSearchResults_total _ acc.state
            exact goodTraceP_step h _ (respTotals (some ⟨some t, m⟩))
              (by rw [ht]; simp [respTotals, h0])
      · simp only [runPhaseBAfterAFail]
        rw [if_neg hdef]
        simpa using goodTraceP_step h acc.state.total [] (by simp)
  | err =>
      simp only [runPhaseBAfterAFail]
      simpa using goodTraceP_step h acc.state.total [] (by simp)

theorem runPhaseA_good (aDur : Nat) (a b c d : QueryResult) (acc : RunResult)
    (h : GoodTrace acc) (h0 : acc.state.total = 0) :
    GoodTrace (runPhaseA aDur a b c d acc) := by
  cases a with
  | ok resp =>
      by_cases hdef : definedGuard resp = true
      · simp only [runPhaseA]
        rw [if_pos hdef]
        refine runPhaseBAfterAOk_good b c d _ ?_
        rcases resp with _ | ⟨t, m⟩
        · simp [definedGuard] at hdef
        · rcases t with _ | t
          · simp [definedGuard] at hdef
          · have ht : (updateSearchResults (some ⟨some t, m⟩) acc.state).total = t :=
              updateSearchResults_total _ acc.state
            exact goodTraceP_step h _ (respTotals (some ⟨some t, m⟩))
              (by rw [ht]; simp [respTotals, h0])
      · simp only [runPhaseA]
        rw [if_neg hdef]
        refine runPhaseBAfterAFail_good b c d _ ?_ h0
        simpa using goodTraceP_step h acc.state.total [] (by simp)
  | err =>
      simp only [runPhaseA]
      refine runPhaseBAfterAFail_good b c d _ ?_ h0
      simpa using goodTraceP_step h acc.state.total [] (by simp)

theorem runSearch_good (p : SearchParams) (aDur : Nat) (a b c d : QueryResult)
    (s0 : SinkState) : GoodTrace (runSearch p aDur a b c d s0) := by
  unfold runSearch
  refine runPhaseA_good aDur a b c d _ ?_ rfl
  exact ⟨rfl, rfl, List.chain'_singleton 0, rfl⟩

theorem not_isNone_of_isSome {α : Type} {o : Option α} (h : o.isSome = true) :
    ¬ o.isNone = true := by
  rcases o with _ | a
  · simp at h
  · simp

theorem runPhaseD_pres (d : QueryResult) (acc : RunResult) :
    (runPhaseD d acc).aPublished = acc.aPublished ∧
    (runPhaseD d acc).bExecuted = acc.bExecuted ∧
    (runPhaseD d acc).cScheduled = acc.cScheduled ∧
    (runPhaseD d acc).cExecuted = acc.cExecuted ∧
    (runPhaseD d acc).dScheduled = acc.dScheduled ∧
    (runPhaseD d acc).state.loading = acc.state.loading := by
  unfold runPhaseD
  split
  · exact ⟨rfl, rfl, rfl, rfl, rfl, rfl⟩
  · cases d with
    | ok resp =>
        refine ⟨rfl, rfl, rfl, rfl, rfl, ?_⟩
        simpa using guardedPublish_loading resp acc.state
    | err => exact ⟨rfl, rfl, rfl, rfl, rfl, rfl⟩

theorem runStartThird_pres (d : QueryResult) (acc : RunResult) :
    (runStartThird d acc).aPublished = acc.aPublished ∧
    (runStartThird d acc).bExecuted = acc.bExecuted ∧
    (runStartThird d acc).cScheduled = acc.cScheduled ∧
    (runStartThird d acc).cExecuted = acc.cExecuted ∧
    (runStartThird d acc).state.loading = acc.state.loading := by
  unfold runStartThird
  split
  · exact ⟨rfl, rfl, rfl, rfl, rfl⟩
  · exact ⟨(runPhaseD_pres d _).1, (runPhaseD_pres d _).2.1, (runPhaseD_pres d _).2.2.1,
      (runPhaseD_pres d _).2.2.2.1, (runPhaseD_pres d _).2.2.2.2.2⟩

theorem runStartThird_dScheduled (d : QueryResult) (acc : RunResult)
    (hp : acc.state.lastSearchParams.isSome = true) :
    (runStartThird d acc).dScheduled = true := by
  unfold runStartThird
  rw [if_neg (not_isNone_of_isSome hp)]
  exact ((runPhaseD_pres d _).2.2.2.2.1).trans rfl

theorem runPhaseC_pres (c d : QueryResult) (acc : RunResult) :
    (runPhaseC c d acc).aPublished = acc.aPublished ∧
    (runPhaseC c d acc).bExecuted = acc.bExecuted ∧
    (runPhaseC c d acc).cScheduled = acc.cScheduled ∧
    (runPhaseC c d acc).state.loading = acc.state.loading := by
  unfold runPhaseC
  split
  · exact ⟨rfl, rfl, rfl, rfl⟩
  · cases c with
    | ok resp =>
        refine ⟨((runStartThird_pres d _).1).trans rfl, ((runStartThird_pres d _).2.1).trans rfl,
          ((runStartThird_pres d _).2.2.1).trans rfl, ?_⟩
        exact ((runStartThird_pres d _).2.2.2.2).trans
          (by simpa using guardedPublish_loading resp acc.state)
    | err => exact ⟨rfl, rfl, rfl, rfl⟩

theorem runPhaseC_cExecuted (c d : QueryResult) (acc : RunResult)
    (hp : acc.state.lastSearchParams.isSome = true) :
    (runPhaseC c d acc).cExecuted = true := by
  unfold runPhaseC
  rw [if_neg (not_isNone_of_isSome hp)]
  cases c with
  | ok resp => exact ((runStartThird_pres d _).2.2.2.1).trans rfl
  | err => rfl

theorem runPhaseC_dScheduled_ok (resp : Option RawResponse) (d : QueryResult)
    (acc : RunResult) (hp : acc.state.lastSearchParams.isSome = true) :
    (runPhaseC (.ok resp) d acc).dScheduled = true := by
  unfold runPhaseC
  rw [if_neg (not_isNone_of_isSome hp)]
  refine runStartThird_dScheduled d _ ?_
  show (guardedPublish resp acc.state).lastSearchParams.isSome = true
  rw [guardedPublish_lastSearchParams]
  exact hp

theorem runPhaseC_dScheduled_err (d : QueryResult) (acc : RunResult) :
    (runPhaseC .err d acc).dScheduled = acc.dScheduled := by
  unfold runPhaseC
  split <;> rfl

theorem runStartSecond_pres (c d : QueryResult) (acc : RunResult) :
    (runStartSecond c d acc).aPublished = acc.aPublished ∧
    (runStartSecond c d acc).bExecuted = acc.bExecuted ∧
    (runStartSecond c d acc).state.loading = acc.state.loading := by
  unfold runStartSecond
  split
  · exact ⟨rfl, rfl, rfl⟩
  · exact ⟨(runPhaseC_pres c d _).1, (runPhaseC_pres c d _).2.1,
      (runPhaseC_pres c d _).2.2.2⟩

theorem runStartSecond_obs (c d : QueryResult) (acc : RunResult)
    (hp : acc.state.lastSearchParams.isSome = true) (hd : acc.dScheduled = false) :
    (runStartSecond c d acc).cScheduled = true ∧
    (runStartSecond c d acc).cExecuted = true ∧
    (runStartSecond c d acc).dScheduled = !(QueryResult.isErr c) := by
  unfold runStartSecond
  rw [if_neg (not_isNone_of_isSome hp)]
  refine ⟨((runPhaseC_pres c d _).2.2.1).trans rfl, ?_, ?_⟩
  · refine runPhaseC_cExecuted c d _ ?_
    exact hp
  · cases c with
    | ok resp =>
        refine (runPhaseC_dScheduled_ok resp d _ ?_).trans rfl
        exact hp
    | err =>
        refine (runPhaseC_dScheduled_err d _).trans ?_
        exact hd

theorem runPhaseBAfterAOk_obs (b c d : QueryResult) (acc : RunResult)
    (hp : acc.state.lastSearchParams.isSome = true) (hd : acc.dScheduled = false) :
    (runPhaseBAfterAOk b c d acc).aPublished = acc.aPublished ∧
    (runPhaseBAfterAOk b c d acc).bExecuted = true ∧
    (runPhaseBAfterAOk b c d acc).cScheduled = true ∧
    (runPhaseBAfterAOk b c d acc).cExecuted = true ∧
    (runPhaseBAfterAOk b c d acc).dScheduled = !(QueryResult.isErr c) ∧
    (runPhaseBAfterAOk b c d acc).state.loading = acc.state.loading := by
  cases b with
  | ok resp =>
      simp only [runPhaseBAfterAOk]
      refine ⟨(runStartSecond_pres c d _).1.trans rfl, (runStartSecond_pres c d _).2.1.trans rfl,
        ?_, ?_, ?_, ?_⟩
      · refine (runStartSecond_obs c d _ ?_ ?_).1
        · show (guardedPublish resp acc.state).lastSearchParams.isSome = true
          rw [guardedPublish_lastSearchParams]; exact hp
        · exact hd
      · refine (runStartSecond_obs c d _ ?_ ?_).2.1
        · show (guardedPublish resp acc.state).lastSearchParams.isSome = true
          rw [guardedPublish_lastSearchParams]; exact hp
        · exact hd
      · refine (runStartSecond_obs c d _ ?_ ?_).2.2
        · show (guardedPublish resp acc.state).lastSearchParams.isSome = true
          rw [guardedPublish_lastSearchParams]; exact hp
        · exact hd
      · refine ((runStartSecond_pres c d _).2.2).trans ?_
        exact guardedPublish_loading resp acc.state
  | err =>
      simp only [runPhaseBAfterAOk]
      refine ⟨(runStartSecond_pres c d _).1.trans rfl, (runStartSecond_pres c d _).2.1.trans rfl,
        ?_, ?_, ?_, (runStartSecond_pres c d _).2.2.trans rfl⟩
      · refine (runStartSecond_obs c d _ ?_ ?_).1
        · exact hp
        · exact hd
      · refine (runStartSecond_obs c d _ ?_ ?_).2.1
        · exact hp
        · exact hd
      · refine (runStartSecond_obs c d _ ?_ ?_).2.2
        · exact hp
        · exact hd

theorem runPhaseBAfterAFail_obs (b c d : QueryResult) (acc : RunResult)
    (hp : acc.state.lastSearchParams.isSome = true) (hd : acc.dScheduled = false)
    (hcs : acc.cScheduled = false) (hce : acc.cExecuted = false) :
    (runPhaseBAfterAFail b c d acc).aPublished = acc.aPublished ∧
    (runPhaseBAfterAFail b c d acc).bExecuted = true ∧
    (runPhaseBAfterAFail b c d acc).cScheduled = wellFormed b ∧
    (runPhaseBAfterAFail b c d acc).cExecuted = wellFormed b ∧
    (runPhaseBAfterAFail b c d acc).dScheduled = (wellFormed b && !(QueryResult.isErr c)) ∧
    (runPhaseBAfterAFail b c d acc).state.loading = acc.state.loading := by
  cases b with
  | ok resp =>
      by_cases hdef : definedGuard resp = true
      · have hwf : wellFormed (.ok resp) = true := hdef
        simp only [runPhaseBAfterAFail]
        rw [if_pos hdef, hwf]
        refine ⟨(runStartSecond_pres c d _).1.trans rfl, (runStartSecond_pres c d _).2.1.trans rfl,
          ?_, ?_, ?_, ?_⟩
        · refine (runStartSecond_obs c d _ ?_ ?_).1
          · show (updateSearchResults resp acc.state).lastSearchParams.isSome = true
            rw [updateSearchResults_lastSearchParams]; exact hp
          · exact hd
        · refine (runStartSecond_obs c d _ ?_ ?_).2.1
          · show (updateSearchResults resp acc.state).lastSearchParams.isSome = true
            rw [updateSearchResults_lastSearchParams]; exact hp
          · exact hd
        · simp only [Bool.true_and]
          refine (runStartSecond_obs c d _ ?_ ?_).2.2
          · show (updateSearchResults resp acc.state).lastSearchParams.isSome = true
            rw [updateSearchResults_lastSearchParams]; exact hp
          · exact hd
        · refine ((runStartSecond_pres c d _).2.2).trans ?_
          exact updateSearchResults_loading resp acc.state
      · have hdg : definedGuard resp = false := by
          cases hx : definedGuard resp
          · rfl
          · exact absurd hx hdef
        have hwf : wellFormed (.ok resp) = false := hdg
        simp only [runPhaseBAfterAFail, hwf]
        rw [if_neg hdef]
        refine ⟨?_, ?_, ?_, ?_, ?_, ?_⟩ <;> simp [hd, hcs, hce]
  | err =>
      have hwf : wellFormed .err = false := rfl
      simp only [runPhaseBAfterAFail, hwf]
      refine ⟨?_, ?_, ?_, ?_, ?_, ?_⟩ <;> simp [hd, hcs, hce]

theorem runPhaseA_obs (aDur : Nat) (a b c d : QueryResult) (acc : RunResult)
    (hp : acc.state.lastSearchParams.isSome = true) (hd : acc.dScheduled = false)
    (hcs : acc.cScheduled = false) (hce : acc.cExecuted = false)
    (hap : acc.aPublished = false) :
    (runPhaseA aDur a b c d acc).aPublished = wellFormed a ∧
    (runPhaseA aDur a b c d acc).bExecuted = true ∧
    (runPhaseA aDur a b c d acc).cScheduled = (wellFormed a || wellFormed b) ∧
    (runPhaseA aDur a b c d acc).cExecuted = (wellFormed a || wellFormed b) ∧
    (runPhaseA aDur a b c d acc).dScheduled
      = ((wellFormed a || wellFormed b) && !(QueryResult.isErr c)) ∧
    (runPhaseA aDur a b c d acc).state.loading = false := by
  cases a with
  | ok resp =>
      by_cases hdef : definedGuard resp = true
      · have hwf : wellFormed (.ok resp) = true := hdef
        simp only [runPhaseA]
        rw [if_pos hdef, hwf]
        simp only [Bool.true_or, Bool.true_and]
        have hobs := fun hp' hd' => runPhaseBAfterAOk_obs b c d
          { state :=
              { updateSearchResults resp acc.state with searchTime := some aDur, loading := false }
            totals := acc.totals ++ [(updateSearchResults resp acc.state).total]
            received := acc.received ++ respTotals resp
            aPublished := true
            bExecuted := acc.bExecuted
            cScheduled := acc.cScheduled
            cExecuted := acc.cExecuted
            dScheduled := acc.dScheduled
            dExecuted := acc.dExecuted } hp' hd'
        have hp' : (updateSearchResults resp acc.state).lastSearchParams.isSome = true := by
          rw [updateSearchResults_lastSearchParams]; exact hp
        obtain ⟨o1, o2, o3, o4, o5, o6⟩ := hobs hp' hd
        exact ⟨o1.trans rfl, o2, o3, o4, o5, o6.trans rfl⟩
      · have hdg : definedGuard resp = false := by
          cases hx : definedGuard resp
          · rfl
          · exact absurd hx hdef
        have hwf : wellFormed (.ok resp) = false := hdg
        simp only [runPhaseA]
        rw [if_neg hdef, hwf]
        simp only [Bool.false_or]
        have hobs := runPhaseBAfterAFail_obs b c d
          { state := { acc.state with loading := false }
            totals := acc.totals ++ [acc.state.total]
            received := acc.received
            aPublished := acc.aPublished
            bExecuted := acc.bExecuted
            cScheduled := acc.cScheduled
            cExecuted := acc.cExecuted
            dScheduled := acc.dScheduled
            dExecuted := acc.dExecuted } hp hd hcs hce
        obtain ⟨o1, o2, o3, o4, o5, o6⟩ := hobs
        exact ⟨o1.trans hap, o2, o3, o4, o5, o6.trans rfl⟩
  | err =>
      have hwf : wellFormed .err = false := rfl
      simp only [runPhaseA]
      rw [hwf]
      simp only [Bool.false_or]
      have hobs := runPhaseBAfterAFail_obs b c d
        { state := { acc.state with loading := false }
          totals := acc.totals ++ [acc.state.total]
          received := acc.received
          aPublished := acc.aPublished
          bExecuted := acc.bExecuted
          cScheduled := acc.cScheduled
          cExecuted := acc.cExecuted
          dScheduled := acc.dScheduled
          dExecuted := acc.dExecuted } hp hd hcs hce
      obtain ⟨o1, o2, o3, o4, o5, o6⟩ := hobs
      exact ⟨o1.trans hap, o2, o3, o4, o5, o6.trans rfl⟩

theorem runPhaseD_received_subset (d : QueryResult) (acc : RunResult) :
    ∀ x ∈ (runPhaseD d acc).received, x ∈ acc.received ∨ x ∈ resultTotals d := by
  intro x hx
  unfold runPhaseD at hx
  split at hx
  · exact Or.inl hx
  · cases d with
    | ok resp =>
        rcases List.mem_append.mp hx with h | h
        · exact Or.inl h
        · exact Or.inr h
    | err => exact Or.inl hx

theorem runPhaseD_received_super (d : QueryResult) (acc : RunResult) :
    ∀ x ∈ acc.received, x ∈ (runPhaseD d acc).received := by
  intro x hx
  unfold runPhaseD
  split
  · exact hx
  · cases d with
    | ok resp => exact List.mem_append.mpr (Or.inl hx)
    | err => exact hx

theorem runStartThird_received_subset (d : QueryResult) (acc : RunResult) :
    ∀ x ∈ (runStartThird d acc).received, x ∈ acc.received ∨ x ∈ resultTotals d := by
  intro x hx
  simp only [runStartThird] at hx
  split at hx
  · exact Or.inl hx
  · have h2 := runPhaseD_received_subset d _ x hx
    exact h2

theorem runStartThird_received_super (d : QueryResult) (acc : RunResult) :
    ∀ x ∈ acc.received, x ∈ (runStartThird d acc).received := by
  intro x hx
  simp only [runStartThird]
  split
  · exact hx
  · refine runPhaseD_received_super d _ x ?_
    exact hx

theorem runPhaseC_received_subset (c d : QueryResult) (acc : RunResult) :
    ∀ x ∈ (runPhaseC c d acc).received,
      x ∈ acc.received ∨ x ∈ resultTotals c ∨ x ∈ resultTotals d := by
  intro x hx
  simp only [runPhaseC] at hx
  split at hx
  · exact Or.inl hx
  · cases c with
    | ok resp =>
        rcases runStartThird_received_subset d _ x hx with h | h
        · rcases List.mem_append.mp h with h' | h'
          · exact Or.inl h'
          · exact Or.inr (Or.inl h')
        · exact Or.inr (Or.inr h)
    | err => exact Or.inl hx

theorem runPhaseC_received_super (c d : QueryResult) (acc : RunResult) :
    ∀ x ∈ acc.received, x ∈ (runPhaseC c d acc).received := by
  intro x hx
  simp only [runPhaseC]
  split
  · exact hx
  · cases c with
    | ok resp =>
        refine runStartThird_received_super d _ x ?_
        exact List.mem_append.mpr (Or.inl hx)
    | err => exact hx

theorem runStartSecond_received_subset (c d : QueryResult) (acc : RunResult) :
    ∀ x ∈ (runStartSecond c d acc).received,
      x ∈ acc.received ∨ x ∈ resultTotals c ∨ x ∈ resultTotals d := by
  intro x hx
  simp only [runStartSecond] at hx
  split at hx
  · exact Or.inl hx
  · have h2 := runPhaseC_received_subset c d _ x hx
    exact h2

theorem runStartSecond_received_super (c d : QueryResult) (acc : RunResult) :
    ∀ x ∈ acc.received, x ∈ (runStartSecond c d acc).received := by
  intro x hx
  simp only [runStartSecond]
  split
  · exact hx
  · refine runPhaseC_received_super c d _ x ?_
    exact hx

theorem le_foldr_max {l : List Nat} {a : Nat} (h : a ∈ l) : a ≤ l.foldr max 0 := by
  induction l with
  | nil => cases h
  | cons x t ih =>
      rcases List.mem_cons.mp h with rfl | h'
      · exact le_max_left _ _
      · exact le_trans (ih h') (le_max_right _ _)

theorem foldr_max_eq {l : List Nat} {b : Nat} (hmem : b ∈ l) (hub : ∀ t ∈ l, t ≤ b) :
    l.foldr max 0 = b :=
  le_antisymm (foldr_max_le hub) (le_foldr_max hmem)

theorem resultTotals_nil {q : QueryResult} (h : wellFormed q = false) :
    resultTotals q = [] := by
  cases q with
  | ok resp =>
      rcases resp with _ | ⟨t, m⟩
      · rfl
      · rcases t with _ | t
        · rfl
        · simp [wellFormed, definedGuard] at h
  | err => rfl

theorem runPhaseBAfterAOk_received_subset (b c d : QueryResult) (acc : RunResult) :
    ∀ x ∈ (runPhaseBAfterAOk b c d acc).received,
      x ∈ acc.received ∨ x ∈ resultTotals b ∨ x ∈ resultTotals c ∨ x ∈ resultTotals d := by
  intro x hx
  cases b with
  | ok resp =>
      simp only [runPhaseBAfterAOk] at hx
      have h2 := runStartSecond_received_subset c d _ x hx
      rcases h2 with h | h | h
      · rcases List.mem_append.mp h with h' | h'
        · exact Or.inl h'
        · exact Or.inr (Or.inl h')
      · exact Or.inr (Or.inr (Or.inl h))
      · exact Or.inr (Or.inr (Or.inr h))
  | err =>
      simp only [runPhaseBAfterAOk] at hx
      have h2 := runStartSecond_received_subset c d _ x hx
      rcases h2 with h | h | h
      · exact Or.inl h
      · exact Or.inr (Or.inr (Or.inl h))
      · exact Or.inr (Or.inr (Or.inr h))

theorem runPhaseBAfterAFail_received_subset (b c d : QueryResult) (acc : RunResult) :
    ∀ x ∈ (runPhaseBAfterAFail b c d acc).received,
      x ∈ acc.received ∨ x ∈ resultTotals b ∨ x ∈ resultTotals c ∨ x ∈ resultTotals d := by
  intro x hx
  cases b with
  | ok resp =>
      simp only [runPhaseBAfterAFail] at hx
      by_cases hdef : definedGuard resp = true
      · rw [if_pos hdef] at hx
        have h2 := runStartSecond_received_subset c d _ x hx
        rcases h2 with h | h | h
        · rcases List.mem_append.mp h with h' | h'
          · exact Or.inl h'
          · exact Or.inr (Or.inl h')
        · exact Or.inr (Or.inr (Or.inl h))
        · exact Or.inr (Or.inr (Or.inr h))
      · rw [if_neg hdef] at hx
        exact Or.inl hx
  | err =>
      simp only [runPhaseBAfterAFail] at hx
      exact Or.inl hx

theorem runPhaseBAfterAFail_received_mem (resp : Option RawResponse)
    (c d : QueryResult) (acc : RunResult) (hdef : definedGuard resp = true) :
    ∀ x ∈ respTotals resp, x ∈ (runPhaseBAfterAFail (.ok resp) c d acc).received := by
  intro x hx
  simp only [runPhaseBAfterAFail]
  rw [if_pos hdef]
  refine runStartSecond_received_super c d _ x ?_
  exact List.mem_append.mpr (Or.inr hx)

theorem runPhaseA_received_subset (aDur : Nat) (a b c d : QueryResult) (acc : RunResult) :
    ∀ x ∈ (runPhaseA aDur a b c d acc).received,
      x ∈ acc.received ∨ x ∈ resultTotals a ∨ x ∈ resultTotals b ∨
        x ∈ resultTotals c ∨ x ∈ resultTotals d := by
  intro x hx
  cases a with
  | ok resp =>
      simp only [runPhaseA] at hx
      by_cases hdef : definedGuard resp = true
      · rw [if_pos hdef] at hx
        have h2 := runPhaseBAfterAOk_received_subset b c d _ x hx
        rcases h2 with h | h | h | h
        · rcases List.mem_append.mp h with h' | h'
          · exact Or.inl h'
          · exact Or.inr (Or.inl h')
        · exact Or.inr (Or.inr (Or.inl h))
        · exact Or.inr (Or.inr (Or.inr (Or.inl h)))
        · exact Or.inr (Or.inr (Or.inr (Or.inr h)))
      · rw [if_neg hdef] at hx
        have h2 := runPhaseBAfterAFail_received_subset b c d _ x hx
        rcases h2 with h | h | h | h
        · exact Or.inl h
        · exact Or.inr (Or.inr (Or.inl h))
        · exact Or.inr (Or.inr (Or.inr (Or.inl h)))
        · exact Or.inr (Or.inr (Or.inr (Or.inr h)))
  | err =>
      simp only [runPhaseA] at hx
      have h2 := runPhaseBAfterAFail_received_subset b c d _ x hx
      rcases h2 with h | h | h | h
      · exact Or.inl h
      · exact Or.inr (Or.inr (Or.inl h))
      · exact Or.inr (Or.inr (Or.inr (Or.inl h)))
      · exact Or.inr (Or.inr (Or.inr (Or.inr h)))

theorem runPhaseA_received_mem_b (aDur : Nat) (a : QueryResult)
    (resp : Option RawResponse) (c d : QueryResult) (acc : RunResult)
    (ha : wellFormed a = false) (hdef : definedGuard resp = true) :
    ∀ x ∈ respTotals resp, x ∈ (runPhaseA aDur a (.ok resp) c d acc).received := by
  intro x hx
  cases a with
  | ok respA =>
      have hA : definedGuard respA = false := ha
      simp only [runPhaseA]
      rw [if_neg (by simp [hA])]
      exact runPhaseBAfterAFail_received_mem resp c d _ hdef x hx
  | err =>
      simp only [runPhaseA]
      exact runPhaseBAfterAFail_received_mem resp c d _ hdef x hx

theorem isDigits_normalizeKey (k : String) : isDigits (normalizeKey k) = false := by
  by_cases h : isDigits k = true
  · have hd : Char.isDigit 'd' = false := by decide
    have hdata : ("disk_" ++ k).data = 'd' :: 'i' :: 's' :: 'k' :: '_' :: k.data := rfl
    unfold normalizeKey
    rw [if_pos h]
    simp [isDigits, hdata, hd]
  · have hf : isDigits k = false := by
      cases hik : isDigits k
      · rfl
      · exact absurd hik h
    simp [normalizeKey, hf]

theorem objInsert_keys (m : CatMap) (k : String) (v : List Item) :
    ∀ k' ∈ (objInsert m k v).map Prod.fst, k' ∈ m.map Prod.fst ∨ k' = k := by
  intro k' hk'
  unfold objInsert at hk'
  split at hk'
  · rcases List.mem_map.mp hk' with ⟨q, hq, rfl⟩
    rcases List.mem_map.mp hq with ⟨kv, hkv, rfl⟩
    by_cases hkk : (kv.1 == k) = true
    · right
      simp [hkk]
    · left
      simp only [hkk, if_neg, Bool.false_eq_true, not_false_iff]
      exact List.mem_map_of_mem Prod.fst hkv
  · rw [List.map_append] at hk'
    rcases List.mem_append.mp hk' with h | h
    · exact Or.inl h
    · right
      simpa using h

theorem objFromEntries_keys_subset :
    ∀ (l acc : CatMap) (k : String),
      k ∈ (l.foldl (fun a kv => objInsert a kv.1 kv.2) acc).map Prod.fst →
      k ∈ acc.map Prod.fst ∨ k ∈ l.map Prod.fst := by
  intro l
  induction l with
  | nil => intro acc k h; exact Or.inl h
  | cons kv t ih =>
      intro acc k h
      rcases ih (objInsert acc kv.1 kv.2) k h with h' | h'
      · rcases objInsert_keys acc kv.1 kv.2 k h' with h'' | h''
        · exact Or.inl h''
        · exact Or.inr (by simp [h''])
      · exact Or.inr (by simp [h'])

/-- C1: within one refinement run the displayed total never decreases and
ends at the maximum of the received well-formed totals. The trace of
displayed totals starts at 0 (the reset of `handleSearch`), is
non-decreasing over time (`List.Chain'`), ends at the final displayed
total, and the final displayed total equals the maximum (0 when none) of
the totals of all successfully received well-formed responses. Moreover
the publish sites of phases B, C and D replace the displayed results only
when the incoming total is at least the currently displayed total, and an
equal total is still republished (the guard is `≥`). -/
theorem C1_theorem :
    (∀ (p : SearchParams) (aDur : Nat) (a b c d : QueryResult) (s0 : SinkState),
      (runSearch p aDur a b c d s0).totals.head? = some 0 ∧
      (runSearch p aDur a b c d s0).totals.getLast?
        = some (runSearch p aDur a b c d s0).state.total ∧
      List.Chain' (· ≤ ·) (runSearch p aDur a b c d s0).totals ∧
      (runSearch p aDur a b c d s0).state.total
        = (runSearch p aDur a b c d s0).received.foldr max 0) ∧
    (∀ (resp : Option RawResponse) (s : SinkState),
      geGuard resp s.total = false → guardedPublish resp s = s) ∧
    (∀ (r : RawResponse) (t : Nat) (s : SinkState),
      r.total = some t → s.total ≤ t →
      guardedPublish (some r) s = updateSearchResults (some r) s) := by
  refine ⟨?_, ?_, ?_⟩
  · intro p aDur a b c d s0
    exact runSearch_good p aDur a b c d s0
  · intro resp s h
    simp [guardedPublish, h]
  · intro r t s ht hle
    have hg : geGuard (some r) s.total = true := by
      simp [geGuard, ht, hle]
    simp [guardedPublish, hg]

/-- C1 witness: the third conjunct of `C1_theorem` applied at a concrete
response with total 3 against the initial state (displayed total 0): the
response is published. -/
theorem C1_witness :
    guardedPublish (some ⟨some 3, some []⟩) initialState
      = updateSearchResults (some ⟨some 3, some []⟩) initialState :=
  C1_theorem.2.2 ⟨some 3, some []⟩ 3 initialState rfl (by decide)

/-- C2 counterexample: with a well-formed A, a well-formed B and a rejected
C, phase C executes (the query settles by rejection) but phase D is never
scheduled — `executeSecondAllSearch` answers a rejection with `stopUpdate`
— refuting the claim that after query C resolves (success or failure)
query D is still scheduled. -/
theorem C2_counterexample :
    (runSearch ⟨"foo"⟩ 0 (.ok (some ⟨some 5, some []⟩)) (.ok (some ⟨some 7, some []⟩))
        .err .err initialState).cExecuted = true ∧
    (runSearch ⟨"foo"⟩ 0 (.ok (some ⟨some 5, some []⟩)) (.ok (some ⟨some 7, some []⟩))
        .err .err initialState).dScheduled = false := by decide

/-- C2 as amended: phase C is scheduled exactly when query A or query B
settled with a well-formed response (so after a well-formed A, a B failure
still advances to C, but when A failed or was malformed, a failed or
malformed B ends the sequence); a scheduled C always executes; and phase D
is scheduled exactly when C was scheduled and the C query did not reject —
a rejected C aborts the remainder of the sequence. -/
theorem C2_theorem :
    ∀ (p : SearchParams) (aDur : Nat) (a b c d : QueryResult) (s0 : SinkState),
      (runSearch p aDur a b c d s0).cScheduled = (wellFormed a || wellFormed b) ∧
      (runSearch p aDur a b c d s0).cExecuted = (runSearch p aDur a b c d s0).cScheduled ∧
      (runSearch p aDur a b c d s0).dScheduled
        = ((runSearch p aDur a b c d s0).cScheduled && !(QueryResult.isErr c)) := by
  intro p aDur a b c d s0
  obtain ⟨o1, o2, o3, o4, o5, o6⟩ := runPhaseA_obs aDur a b c d
    { state := searchReset p s0
      totals := [(searchReset p s0).total]
      received := []
      aPublished := false
      bExecuted := false
      cScheduled := false
      cExecuted := false
      dScheduled := false
      dExecuted := false } rfl rfl rfl rfl rfl
  refine ⟨o3, o4.trans o3.symm, ?_⟩
  show (runSearch p aDur a b c d s0).dScheduled
    = ((runSearch p aDur a b c d s0).cScheduled && !(QueryResult.isErr c))
  rw [show (runSearch p aDur a b c d s0).cScheduled = (wellFormed a || wellFormed b) from o3]
  exact o5

/-- C3: the code has no superseded-sequence check. The scenario: search
"foo" starts and its query A is still in flight when search "bar" starts.
The new search does cancel the pending phase-C and phase-D timers
(`stopUpdate` nulls both handles — first two conjuncts), but when the old
request's query A response then arrives, its `.then` continuation
publishes it unconditionally: the sink shows the old request's total 7 and
its category map while the current keyword is already "bar". -/
theorem C3_theorem :
    (searchReset ⟨"bar"⟩
        { searchReset ⟨"foo"⟩ initialState with
          secondSearchTimeout := some 2, thirdSearchTimeout := some 3 }).secondSearchTimeout
      = none ∧
    (searchReset ⟨"bar"⟩
        { searchReset ⟨"foo"⟩ initialState with
          secondSearchTimeout := some 2, thirdSearchTimeout := some 3 }).thirdSearchTimeout
      = none ∧
    (runPhaseA 200 (.ok (some ⟨some 7, some [("aliyun", [0])]⟩)) .err .err .err
        { state := searchReset ⟨"bar"⟩ (searchReset ⟨"foo"⟩ initialState)
          totals := [0], received := [], aPublished := false, bExecuted := false,
          cScheduled := false, cExecuted := false, dScheduled := false,
          dExecuted := false }).aPublished = true ∧
    (runPhaseA 200 (.ok (some ⟨some 7, some [("aliyun", [0])]⟩)) .err .err .err
        { state := searchReset ⟨"bar"⟩ (searchReset ⟨"foo"⟩ initialState)
          totals := [0], received := [], aPublished := false, bExecuted := false,
          cScheduled := false, cExecuted := false, dScheduled := false,
          dExecuted := false }).state.total = 7 ∧
    (runPhaseA 200 (.ok (some ⟨some 7, some [("aliyun", [0])]⟩)) .err .err .err
        { state := searchReset ⟨"bar"⟩ (searchReset ⟨"foo"⟩ initialState)
          totals := [0], received := [], aPublished := false, bExecuted := false,
          cScheduled := false, cExecuted := false, dScheduled := false,
          dExecuted := false }).state.mergedResults = publishMap [("aliyun", [0])] ∧
    (runPhaseA 200 (.ok (some ⟨some 7, some [("aliyun", [0])]⟩)) .err .err .err
        { state := searchReset ⟨"bar"⟩ (searchReset ⟨"foo"⟩ initialState)
          totals := [0], received := [], aPublished := false, bExecuted := false,
          cScheduled := false, cExecuted := false, dScheduled := false,
          dExecuted := false }).state.keyword = "bar" := by decide

/-- C4 counterexample: phase A publishes total 5 with a non-empty category
map; phase B returns a response with total 10 but no `merged_by_type`.
The B response passes the `≥` guard, so `updateSearchResults` runs: the
displayed total changes to 10 and the displayed category map is cleared —
refuting the claim that a response with a missing category map leaves both
the displayed total and the displayed map unchanged. -/
theorem C4_counterexample :
    (runSearch ⟨"foo"⟩ 0 (.ok (some ⟨some 5, some [("aliyun", [0])]⟩))
        (.ok (some ⟨some 10, none⟩)) .err .err initialState).state.total = 10 ∧
    (runSearch ⟨"foo"⟩ 0 (.ok (some ⟨some 5, some [("aliyun", [0])]⟩))
        (.ok (some ⟨some 10, none⟩)) .err .err initialState).state.mergedResults = [] ∧
    publishMap [("aliyun", [0])] ≠ [] ∧ (10 : Nat) ≠ 5 := by decide

/-- C4 as amended: a null response or one with a missing/invalid `total`
is never published — the guard fails and the guarded publish leaves the
state unchanged (no improvement this phase, never fatal). But a response
with a valid total and a missing category map is not treated as malformed:
when its total passes the `≥` guard it is published, setting the displayed
total and clearing the displayed category map to empty. -/
theorem C4_theorem :
    ∀ (s : SinkState) (resp : Option RawResponse),
      (definedGuard resp = false →
        geGuard resp s.total = false ∧ guardedPublish resp s = s) ∧
      (∀ (r : RawResponse) (t : Nat), resp = some r → r.merged_by_type = none →
        r.total = some t → s.total ≤ t →
        (guardedPublish resp s).total = t ∧ (guardedPublish resp s).mergedResults = []) := by
  intro s resp
  constructor
  · intro hdef
    have hg : geGuard resp s.total = false := by
      rcases resp with _ | ⟨t, m⟩
      · rfl
      · rcases t with _ | t
        · rfl
        · simp [definedGuard] at hdef
    exact ⟨hg, by simp [guardedPublish, hg]⟩
  · rintro r t rfl hm ht hle
    have hg : geGuard (some r) s.total = true := by
      simp [geGuard, ht, hle]
    rcases r with ⟨rt, rm⟩
    simp only [RawResponse.mk.injEq] at hm ht
    subst hm
    subst ht
    constructor
    · simp [guardedPublish, hg, updateSearchResults]
    · simp [guardedPublish, hg, updateSearchResults]

/-- C4 witness: `C4_theorem` applied at a state displaying total 5 and a
response with total 10 and a missing category map: the publish goes
through, setting total 10 and the empty map. -/
theorem C4_witness :
    (guardedPublish (some ⟨some 10, none⟩) { initialState with total := 5 }).total = 10 ∧
    (guardedPublish (some ⟨some 10, none⟩)
        { initialState with total := 5 }).mergedResults = [] :=
  (C4_theorem { initialState with total := 5 } (some ⟨some 10, none⟩)).2
    ⟨some 10, none⟩ 10 rfl rfl rfl (by decide)

/-- C5: the phase-C timer delay is exactly `max 0 (2000 - (now - tB))` and
the phase-D delay exactly `max 0 (3000 - (now - tC))`, so (scheduling at
`now ≥` the completion time) phase C fires at `max now (tB + 2000)` —
never before `tB + 2000`, and immediately (zero delay) when that gap has
already elapsed — and phase D symmetrically fires at `max now (tC + 3000)`. -/
theorem C5_theorem :
    ∀ (now tB tC : Int), tB ≤ now → tC ≤ now →
      delayForSecondSearch now tB = max 0 (2000 - (now - tB)) ∧
      now + delayForSecondSearch now tB = max now (tB + 2000) ∧
      tB + 2000 ≤ now + delayForSecondSearch now tB ∧
      (tB + 2000 ≤ now → delayForSecondSearch now tB = 0) ∧
      delayForThirdSearch now tC = max 0 (3000 - (now - tC)) ∧
      now + delayForThirdSearch now tC = max now (tC + 3000) ∧
      tC + 3000 ≤ now + delayForThirdSearch now tC ∧
      (tC + 3000 ≤ now → delayForThirdSearch now tC = 0) := by
  intro now tB tC hB hC
  unfold delayForSecondSearch delayForThirdSearch
  refine ⟨rfl, ?_, ?_, ?_, rfl, ?_, ?_, ?_⟩ <;> omega

/-- C5 witness: `C5_theorem` at the spec's own example times — query B
completes and schedules at `t = 0`, so C fires at 2000; query C completes
and schedules at `t = 2500`, so D fires at 5500. -/
theorem C5_witness :
    (0 : Int) + delayForSecondSearch 0 0 = max 0 (0 + 2000) ∧
    (2500 : Int) + delayForThirdSearch 2500 2500 = max 2500 (2500 + 3000) :=
  ⟨(C5_theorem 0 0 0 le_rfl le_rfl).2.1,
   (C5_theorem 2500 0 2500 (by decide) le_rfl).2.2.2.2.2.1⟩

/-- C6: the published category entries are re-ordered by the fixed
priority list `diskSortOrder`, comparing every key by its name with any
`disk_` marker stripped (`sortPos`): along the sorted output the
comparator positions are non-decreasing (`Pairwise`), so every key whose
stripped name is in the list appears, in list order, before every key
whose stripped name is not (position 999); the output is a permutation of
the normalized entries; the sort is stable — any two entries whose
positions are in (weak) order, in particular any two keys not in the list
(both at 999), keep their original relative order; and with both "101"
and "aliyun" present, "aliyun" (position 0) precedes "101" (published as
"disk_101", position 999). -/
theorem C6_theorem :
    (∀ m : CatMap,
      (sortByPos (normalizeEntries m)).Pairwise
        (fun u v => sortPos u.1 ≤ sortPos v.1) ∧
      List.Perm (sortByPos (normalizeEntries m)) (normalizeEntries m)) ∧
    (∀ (m : CatMap) (x y : String × List Item),
      sortPos x.1 ≤ sortPos y.1 → List.Sublist [x, y] (normalizeEntries m) →
      List.Sublist [x, y] (sortByPos (normalizeEntries m))) ∧
    publishMap [("101", [0]), ("aliyun", [1])]
      = [("aliyun", [1]), ("disk_101", [0])] := by
  refine ⟨?_, ?_, by decide⟩
  · intro m
    exact ⟨pairwise_sortByPos _, sortByPos_perm _⟩
  · intro m x y hp hsub
    exact sortByPos_stable hsub hp

/-- C6 witness: stability conjunct of `C6_theorem` at two keys outside the
priority list (both at position 999): their original order survives the
sort. -/
theorem C6_witness :
    List.Sublist [(("foo" : String), ([] : List Item)), ("bar", [])]
      (sortByPos (normalizeEntries [("foo", []), ("bar", [])])) :=
  C6_theorem.2.1 [("foo", []), ("bar", [])] ("foo", []) ("bar", [])
    (by decide) (by decide)

/-- C7 counterexample: search 1 starts at t=0 (its A settles at 1000),
search 2 starts at t=4000 with a slow query A settling at 8000. The claim
says search 2's loading flag turns false at min(8000, 4000+5000) = 8000.
But search 1's 5-second safety timeout is never cancelled (its handle is
not stored anywhere); it fires at t=5000, finds the global `loading` true
and clears it: loading is already false at 5000 and 6000, long before
8000. -/
theorem C7_counterexample :
    loadingAt (twoSearchTimeline 0 1000 4000 8000) 4999 = true ∧
    loadingAt (twoSearchTimeline 0 1000 4000 8000) 5000 = false ∧
    loadingAt (twoSearchTimeline 0 1000 4000 8000) 6000 = false ∧
    (5000 : Nat) < min 8000 (4000 + 5000) := by decide

/-- C7 as amended: for a single search with no overlapping search (and no
earlier search's timeout pending), `loading` is true exactly from the
search start until the earlier of query A's settlement and the firing of
the 5-second safety timeout; the cross-search isolation part of the claim
fails because timeouts are global and never cancelled
(`C7_counterexample`). -/
theorem C7_theorem :
    ∀ (s rA t : Nat), s < rA →
      (loadingAt (oneSearchTimeline s rA) t = true ↔
        (s ≤ t ∧ t < rA ∧ t < s + 5000)) := by
  intro s rA t hs
  unfold oneSearchTimeline loadingAt loadingAfter
  by_cases h1 : rA ≤ s + 5000
  · rw [if_pos h1]
    by_cases h2 : s ≤ t <;> by_cases h3 : rA ≤ t <;> by_cases h4 : s + 5000 ≤ t <;>
      simp [List.filter, h2, h3, h4, applyLoadEvent] <;> omega
  · rw [if_neg h1]
    by_cases h2 : s ≤ t <;> by_cases h3 : rA ≤ t <;> by_cases h4 : s + 5000 ≤ t <;>
      simp [List.filter, h2, h3, h4, applyLoadEvent] <;> omega

/-- C7 witness: `C7_theorem` for a search starting at 100 whose query A
settles at 600, observed at t = 300: loading is still true. -/
theorem C7_witness :
    loadingAt (oneSearchTimeline 100 600) 300 = true ↔
      (100 ≤ 300 ∧ 300 < 600 ∧ 300 < 100 + 5000) :=
  C7_theorem 100 600 300 (by decide)

/-- C8: when query A fails or returns a malformed response, nothing is
published for phase A (`aPublished = false`) but query B is still issued
(`bExecuted = true`); and when B then succeeds with total 50 (and no later
phase improves on it), the sink ends with `loading = false` and displayed
total 50. -/
theorem C8_theorem :
    ∀ (p : SearchParams) (aDur : Nat) (a : QueryResult) (mB : Option CatMap)
      (c d : QueryResult) (s0 : SinkState),
      wellFormed a = false →
      (∀ t ∈ resultTotals c ++ resultTotals d, t ≤ 50) →
      (runSearch p aDur a (.ok (some ⟨some 50, mB⟩)) c d s0).aPublished = false ∧
      (runSearch p aDur a (.ok (some ⟨some 50, mB⟩)) c d s0).bExecuted = true ∧
      (runSearch p aDur a (.ok (some ⟨some 50, mB⟩)) c d s0).state.loading = false ∧
      (runSearch p aDur a (.ok (some ⟨some 50, mB⟩)) c d s0).state.total = 50 := by
  intro p aDur a mB c d s0 ha hcd
  obtain ⟨o1, o2, _, _, _, o6⟩ := runPhaseA_obs aDur a (.ok (some ⟨some 50, mB⟩)) c d
    { state := searchReset p s0
      totals := [(searchReset p s0).total]
      received := []
      aPublished := false
      bExecuted := false
      cScheduled := false
      cExecuted := false
      dScheduled := false
      dExecuted := false } rfl rfl rfl rfl rfl
  refine ⟨o1.trans ha, o2, o6, ?_⟩
  obtain ⟨_, _, _, hmax⟩ := runSearch_good p aDur a (.ok (some ⟨some 50, mB⟩)) c d s0
  rw [hmax]
  refine foldr_max_eq ?_ ?_
  · exact runPhaseA_received_mem_b aDur a (some ⟨some 50, mB⟩) c d _ ha rfl 50
      (by simp [respTotals])
  · intro x hx
    have h2 := runPhaseA_received_subset aDur a (.ok (some ⟨some 50, mB⟩)) c d _ x hx
    rcases h2 with h | h | h | h | h
    · exact absurd h (List.not_mem_nil x)
    · rw [resultTotals_nil ha] at h
      exact absurd h (List.not_mem_nil x)
    · have hx50 : x = 50 := by simpa [resultTotals, respTotals] using h
      exact le_of_eq hx50
    · exact hcd x (List.mem_append.mpr (Or.inl h))
    · exact hcd x (List.mem_append.mpr (Or.inr h))

/-- C8 witness: `C8_theorem` with query A rejected and queries C and D
rejected: the sink ends with loading false and total 50. -/
theorem C8_witness :
    (runSearch ⟨"foo"⟩ 0 .err (.ok (some ⟨some 50, some []⟩)) .err .err
        initialState).aPublished = false ∧
    (runSearch ⟨"foo"⟩ 0 .err (.ok (some ⟨some 50, some []⟩)) .err .err
        initialState).bExecuted = true ∧
    (runSearch ⟨"foo"⟩ 0 .err (.ok (some ⟨some 50, some []⟩)) .err .err
        initialState).state.loading = false ∧
    (runSearch ⟨"foo"⟩ 0 .err (.ok (some ⟨some 50, some []⟩)) .err .err
        initialState).state.total = 50 :=
  C8_theorem ⟨"foo"⟩ 0 .err (some []) .err .err initialState rfl (by decide)

/-- C9 counterexample: key rewriting is not injective. With both "101" and
"disk_101" present in the incoming map, both normalize to "disk_101" and
the rebuild-as-object step collapses them: the digit key "101" does not
appear in the published map with its item list [0] under the key
"disk_101" — the later entry's list [1] won — refuting the claim that
every digit-only key appears prefixed with its item list unchanged. -/
theorem C9_counterexample :
    (("101" : String), ([0] : List Item)) ∈
      ([("101", [0]), ("disk_101", [1])] : CatMap) ∧
    isDigits "101" = true ∧
    (("disk_101" : String), ([0] : List Item)) ∉
      publishMap [("101", [0]), ("disk_101", [1])] := by decide

/-- C9 as amended: provided no two distinct incoming keys normalize to the
same name (no key "disk_D" alongside the digit-only key "D"), every entry
of the incoming map appears in the published map under its normalized key
— digit-only keys gain the `disk_` marker, all others are unchanged — with
its item list intact; and unconditionally, no key of the published map is
a plain digit string. -/
theorem C9_theorem :
    (∀ m : CatMap,
      ((normalizeEntries m).map Prod.fst).Nodup →
      ∀ kv ∈ m, (normalizeKey kv.1, kv.2) ∈ publishMap m) ∧
    (∀ (m : CatMap) (k : String),
      k ∈ (publishMap m).map Prod.fst → isDigits k = false) := by
  constructor
  · intro m hnd kv hkv
    have hperm := sortByPos_perm (normalizeEntries m)
    have hnd' : ((sortByPos (normalizeEntries m)).map Prod.fst).Nodup :=
      ((hperm.map Prod.fst).nodup_iff).mpr hnd
    have heq : publishMap m = sortByPos (normalizeEntries m) :=
      objFromEntries_of_nodup hnd'
    rw [heq]
    exact hperm.mem_iff.mpr (List.mem_map.mpr ⟨kv, hkv, rfl⟩)
  · intro m k hk
    have h1 := objFromEntries_keys_subset (sortByPos (normalizeEntries m)) [] k hk
    rcases h1 with h | h
    · exact absurd h (List.not_mem_nil k)
    · have h2 : k ∈ (normalizeEntries m).map Prod.fst :=
        ((sortByPos_perm (normalizeEntries m)).map Prod.fst).mem_iff.mp h
      rcases List.mem_map.mp h2 with ⟨kv, hkv, rfl⟩
      rcases List.mem_map.mp hkv with ⟨kv0, _, rfl⟩
      exact isDigits_normalizeKey kv0.1

/-- C9 witness: `C9_theorem` on a collision-free map: the digit key "101"
reaches the sink as "disk_101" with its item list unchanged. -/
theorem C9_witness :
    (("disk_101" : String), ([5] : List Item)) ∈
      publishMap [("101", [5]), ("aliyun", [7])] :=
  C9_theorem.1 [("101", [5]), ("aliyun", [7])] (by decide) ("101", [5]) (by decide)

/-- C10: `stopUpdate` is idempotent, and — timer ids being strictly
positive, as browser timer ids are — it nulls the three timer handles and
clears `isUpdating` and `isActivelySearching`, leaving `loading`, the
displayed total and category map, `searchTime`, `updateCount` and all
other fields unchanged (the record-update equality states the exact
frame). -/
theorem C10_theorem :
    ∀ s : SinkState,
      stopUpdate (stopUpdate s) = stopUpdate s ∧
      ((∀ id, s.updateTimer = some id → 0 < id) →
       (∀ id, s.secondSearchTimeout = some id → 0 < id) →
       (∀ id, s.thirdSearchTimeout = some id → 0 < id) →
       stopUpdate s = { s with
         updateTimer := none
         secondSearchTimeout := none
         thirdSearchTimeout := none
         isUpdating := false
         isActivelySearching := false }) := by
  intro s
  have hch : ∀ t, clearHandle (clearHandle t) = clearHandle t := by
    intro t
    rcases t with _ | id
    · rfl
    · by_cases h : id = 0
      · simp [clearHandle, h]
      · simp [clearHandle, h]
  constructor
  · simp [stopUpdate, hch]
  · intro h1 h2 h3
    have c1 : clearHandle s.updateTimer = none := by
      rcases hu : s.updateTimer with _ | id
      · rfl
      · have hpos := h1 id hu
        have hne : id ≠ 0 := Nat.pos_iff_ne_zero.mp hpos
        simp [clearHandle, hne]
    have c2 : clearHandle s.secondSearchTimeout = none := by
      rcases hu : s.secondSearchTimeout with _ | id
      · rfl
      · have hpos := h2 id hu
        have hne : id ≠ 0 := Nat.pos_iff_ne_zero.mp hpos
        simp [clearHandle, hne]
    have c3 : clearHandle s.thirdSearchTimeout = none := by
      rcases hu : s.thirdSearchTimeout with _ | id
      · rfl
      · have hpos := h3 id hu
        have hne : id ≠ 0 := Nat.pos_iff_ne_zero.mp hpos
        simp [clearHandle, hne]
    simp [stopUpdate, c1, c2, c3]

/-- C10 witness: `C10_theorem` at a state with armed timers 5, 6, 7 and
raised flags: `stopUpdate` returns it to the initial state. -/
theorem C10_witness :
    stopUpdate
        { initialState with
          updateTimer := some 5, secondSearchTimeout := some 6,
          thirdSearchTimeout := some 7,
          isUpdating := true, isActivelySearching := true }
      = initialState :=
  (C10_theorem
      { initialState with
        updateTimer := some 5, secondSearchTimeout := some 6,
        thirdSearchTimeout := some 7,
        isUpdating := true, isActivelySearching := true }).2
    (fun id hid => by injection hid with h'; omega)
    (fun id hid => by injection hid with h'; omega)
    (fun id hid => by injection hid with h'; omega)

end PanSou
